import Mathlib

/-!
Verification of the raw-protocol browser-automation engine of the
myAccount QA agent repository (worker variant: `worker/browser.py`,
`worker/agent.py`, `worker/skills/login_checker.py`).

Bytes are modelled as natural numbers (the Python code manipulates `bytes`
values whose elements are 0..255; the bit operations `^`, `&`, `|` are
`Nat.xor`, `Nat.land`, `Nat.lor` restricted to that range).  Strings are
Lean `String`s.  Fallible operations return `Option`/`Except`.
-/

namespace QAAgent

/-! ### WebSocket framing (`_WebSocket.send` / `_WebSocket.recv`,
browser.py lines 66-124) -/

/-- XOR a byte sequence with a 4-byte mask key repeating every 4 bytes,
starting at index `i` — the loop `payload[i] ^ mask[i % 4]` used both in
`send` (line 83-84) and in `recv` (line 103). -/
def maskWith (mask : List Nat) : Nat → List Nat → List Nat
  | _, [] => []
  | i, b :: rest => (b ^^^ mask.getD (i % 4) 0) :: maskWith mask (i + 1) rest

/-- Encoding `struct.pack(">H", n)`: big-endian 16-bit encoding (valid for `n < 65536`). -/
def pack16 (n : Nat) : List Nat := [n / 256, n % 256]

/-- Encoding `struct.pack(">Q", n)`: big-endian 64-bit encoding (valid for `n < 2^64`). -/
def pack64 (n : Nat) : List Nat :=
  [n / 256 ^ 7 % 256, n / 256 ^ 6 % 256, n / 256 ^ 5 % 256, n / 256 ^ 4 % 256,
   n / 256 ^ 3 % 256, n / 256 ^ 2 % 256, n / 256 % 256, n % 256]

/-- The byte stream produced by `_WebSocket.send` for one masked text frame
(browser.py lines 66-85): byte `0x81` (FIN + text opcode), the length field
with the mask bit `0x80` set (7-bit, 16-bit-extended or 64-bit-extended
encoding), the 4-byte mask key, then the payload XORed with the key. -/
def wsSendFrame (payload mask : List Nat) : List Nat :=
  let length := payload.length
  let lenBytes :=
    if length < 126 then [128 ||| length]
    else if length < 65536 then [128 ||| 126] ++ pack16 length
    else [128 ||| 127] ++ pack64 length
  129 :: (lenBytes ++ mask ++ maskWith mask 0 payload)

/-- Extended-length decoding inside `_WebSocket.recv` (browser.py lines
96-99): a 7-bit length below 126 stands for itself, 126 selects a 16-bit
big-endian extension, 127 a 64-bit big-endian extension. -/
def parseExtLen (len0 : Nat) (r : List Nat) : Option (Nat × List Nat) :=
  if len0 == 126 then
    match r with
    | e0 :: e1 :: r1 => some (e0 * 256 + e1, r1)
    | _ => none
  else if len0 == 127 then
    match r with
    | e0 :: e1 :: e2 :: e3 :: e4 :: e5 :: e6 :: e7 :: r1 =>
      let v1 := e0 * 256 + e1
      let v2 := v1 * 256 + e2
      let v3 := v2 * 256 + e3
      let v4 := v3 * 256 + e4
      let v5 := v4 * 256 + e5
      let v6 := v5 * 256 + e6
      some (v6 * 256 + e7, r1)
    | _ => none
  else some (len0, r)

/-- Mask-key extraction inside `_WebSocket.recv` (browser.py line 100):
4 bytes when the mask bit was set, nothing otherwise. -/
def parseMaskKey (is_masked : Bool) (r1 : List Nat) : Option (List Nat × List Nat) :=
  if is_masked then
    if 4 ≤ r1.length then some (r1.take 4, r1.drop 4) else none
  else some (([] : List Nat), r1)

/-- One step of the frame parser inside `_WebSocket.recv` (browser.py lines
91-103): header byte pair, extended length, mask key when the mask bit is
set, payload, unmasking.  Returns `(fin, opcode, masked, payload, rest)`;
`none` models `_read_exact` failing for lack of bytes. -/
def parseFrame : List Nat → Option (Bool × Nat × Bool × List Nat × List Nat)
  | b0 :: b1 :: r =>
    let fin : Bool := (b0 &&& 128) != 0
    let opcode := b0 &&& 15
    let is_masked : Bool := (b1 &&& 128) != 0
    let len0 := b1 &&& 127
    (do
      let (length, r1) ← parseExtLen len0 r
      let (mkey, r2) ← parseMaskKey is_masked r1
      if length ≤ r2.length then
        let raw := r2.take length
        let payload := if is_masked then maskWith mkey 0 raw else raw
        some (fin, opcode, is_masked, payload, r2.drop length)
      else none)
  | _ => none

/-! Basic lemmas about masking. -/

theorem maskWith_length (mask : List Nat) (i : Nat) (p : List Nat) :
    (maskWith mask i p).length = p.length := by
  induction p generalizing i with
  | nil => rfl
  | cons b rest ih => simp [maskWith, ih]

theorem maskWith_maskWith (mask : List Nat) (i : Nat) (p : List Nat) :
    maskWith mask i (maskWith mask i p) = p := by
  induction p generalizing i with
  | nil => rfl
  | cons b rest ih =>
    simp only [maskWith, ih]
    rw [Nat.xor_assoc, Nat.xor_self, Nat.xor_zero]

/-! Decode identities for the length-field encodings. -/

theorem lenByte_small : ∀ l, l < 126 →
    (128 ||| l) &&& 128 = 128 ∧ (128 ||| l) &&& 127 = l := by decide

theorem unpack16 (n : Nat) : n / 256 * 256 + n % 256 = n :=
  Nat.div_add_mod' n 256

theorem unpack64n (n : Nat) (h : n < 18446744073709551616) :
    ((((((n / 72057594037927936 % 256 * 256 + n / 281474976710656 % 256) * 256
        + n / 1099511627776 % 256) * 256 + n / 4294967296 % 256) * 256
        + n / 16777216 % 256) * 256 + n / 65536 % 256) * 256
        + n / 256 % 256) * 256 + n % 256 = n := by
  omega

theorem unpack64 (n : Nat) (h : n < 2 ^ 64) :
    ((((((n / 256 ^ 7 % 256 * 256 + n / 256 ^ 6 % 256) * 256 + n / 256 ^ 5 % 256) * 256
        + n / 256 ^ 4 % 256) * 256 + n / 256 ^ 3 % 256) * 256 + n / 256 ^ 2 % 256) * 256
        + n / 256 % 256) * 256 + n % 256 = n := by
  norm_num at h ⊢
  omega

/-- Claim C2 core: decoding an encoded masked text frame recovers the
payload (any payload whose length `struct.pack` accepts, any 4-byte key). -/
theorem wsFrame_roundtrip_aux (payload mask : List Nat) (hm : mask.length = 4)
    (hlen : payload.length < 2 ^ 64) :
    parseFrame (wsSendFrame payload mask) = some (true, 1, true, payload, []) := by
  have hmaskedlen : (maskWith mask 0 payload).length = payload.length :=
    maskWith_length mask 0 payload
  by_cases h1 : payload.length < 126
  · obtain ⟨hb128, hb127⟩ := lenByte_small payload.length h1
    simp only [wsSendFrame, if_pos h1, List.cons_append, List.nil_append]
    simp only [parseFrame, parseExtLen, parseMaskKey, hb127, hb128]
    have h126 : (payload.length == 126) = false := by
      simp [Nat.ne_of_lt h1]
    have h127 : (payload.length == 127) = false := by
      have : payload.length ≠ 127 := by omega
      simp [this]
    simp only [h126, h127, Bool.false_eq_true, if_false, if_neg]
    have ht4 : (mask ++ maskWith mask 0 payload).take 4 = mask := List.take_left' hm
    have hd4 : (mask ++ maskWith mask 0 payload).drop 4 = maskWith mask 0 payload :=
      List.drop_left' hm
    simp [ht4, hd4, List.length_append, hm, hmaskedlen,
      List.drop_eq_nil_of_le hmaskedlen.le]
    exact ⟨by decide, by rw [List.take_of_length_le hmaskedlen.le, maskWith_maskWith]⟩
  · have ht4 : (mask ++ maskWith mask 0 payload).take 4 = mask := List.take_left' hm
    have hd4 : (mask ++ maskWith mask 0 payload).drop 4 = maskWith mask 0 payload :=
      List.drop_left' hm
    by_cases h2 : payload.length < 65536
    · simp only [wsSendFrame, if_neg h1, if_pos h2, pack16, List.cons_append,
        List.append_assoc, List.nil_append]
      simp only [parseFrame, parseExtLen, parseMaskKey]
      norm_num
      rw [unpack16]
      have d1 : (254 &&& 127 : Nat) = 126 := by decide
      have d2 : (254 &&& 128 : Nat) = 128 := by decide
      have d3 : (129 &&& 128 : Nat) = 128 := by decide
      have d4 : (129 &&& 15 : Nat) = 1 := by decide
      have hdp : (mask ++ maskWith mask 0 payload).drop (4 + payload.length) = [] := by
        rw [show (4 + payload.length) = mask.length + payload.length by rw [hm]]
        rw [List.drop_append, List.drop_eq_nil_of_le hmaskedlen.le]
      simp [ht4, hd4, List.length_append, hm, hmaskedlen, d1, d2, d3, d4, hdp,
        List.drop_eq_nil_of_le hmaskedlen.le,
        List.take_of_length_le hmaskedlen.le, maskWith_maskWith]
    · simp only [wsSendFrame, if_neg h1, if_neg h2, pack64, List.cons_append,
        List.append_assoc, List.nil_append]
      simp only [parseFrame, parseExtLen, parseMaskKey]
      have e0 : ((128 ||| 127 : Nat) &&& 127) = 127 := by decide
      have e128 : ((128 ||| 127 : Nat) &&& 128) = 128 := by decide
      have d3 : (129 &&& 128 : Nat) = 128 := by decide
      have d4 : (129 &&& 15 : Nat) = 1 := by decide
      simp only [e0, e128, d3, d4]
      norm_num
      rw [unpack64n payload.length (by norm_num at hlen; exact hlen)]
      rw [if_pos (by simp [List.length_append, hm] : 4 ≤ mask.length + (maskWith mask 0 payload).length)]
      simp only [Option.some_bind, ht4, hd4]
      rw [if_pos (Nat.le_of_eq hmaskedlen.symm)]
      rw [List.take_of_length_le hmaskedlen.le, maskWith_maskWith,
        List.drop_eq_nil_of_le hmaskedlen.le]
      rfl

/-- Helper fact: `parseExtLen` never lengthens the remaining stream. -/
theorem parseExtLen_le (len0 : Nat) (r : List Nat) (L : Nat) (r1 : List Nat)
    (h : parseExtLen len0 r = some (L, r1)) : r1.length ≤ r.length := by
  unfold parseExtLen at h
  split at h
  · match r with
    | e0 :: e1 :: r2 =>
      simp only [Option.some.injEq, Prod.mk.injEq] at h
      simp [← h.2]
      omega
    | [] => simp at h
    | [e0] => simp at h
  · split at h
    · match r with
      | e0 :: e1 :: e2 :: e3 :: e4 :: e5 :: e6 :: e7 :: r2 =>
        simp only [Option.some.injEq, Prod.mk.injEq] at h
        simp [← h.2]
        omega
      | [] => simp at h
      | [e0] => simp at h
      | [e0, e1] => simp at h
      | [e0, e1, e2] => simp at h
      | [e0, e1, e2, e3] => simp at h
      | [e0, e1, e2, e3, e4] => simp at h
      | [e0, e1, e2, e3, e4, e5] => simp at h
      | [e0, e1, e2, e3, e4, e5, e6] => simp at h
    · simp only [Option.some.injEq, Prod.mk.injEq] at h
      simp [← h.2]

/-- Helper fact: `parseMaskKey` never lengthens the remaining stream. -/
theorem parseMaskKey_le (m : Bool) (r1 : List Nat) (k : List Nat) (r2 : List Nat)
    (h : parseMaskKey m r1 = some (k, r2)) : r2.length ≤ r1.length := by
  unfold parseMaskKey at h
  split at h
  · split at h
    · simp only [Option.some.injEq, Prod.mk.injEq] at h
      simp [← h.2]
    · simp at h
  · simp only [Option.some.injEq, Prod.mk.injEq] at h
    simp [← h.2]

/-- Every successfully parsed frame consumes at least its two header bytes:
the remaining stream is strictly shorter. -/
theorem parseFrame_rest_lt (s : List Nat)
    (out : Bool × Nat × Bool × List Nat × List Nat)
    (h : parseFrame s = some out) : out.2.2.2.2.length < s.length := by
  match s with
  | [] =>
    simp only [parseFrame] at h
    exact Option.noConfusion h
  | [b0] =>
    simp only [parseFrame] at h
    exact Option.noConfusion h
  | b0 :: b1 :: r =>
    simp only [parseFrame, Option.bind_eq_bind, Option.bind_eq_some] at h
    obtain ⟨⟨L, r1⟩, hext, ⟨⟨k, r2⟩, hmask, hfin⟩⟩ := h
    have h1 := parseExtLen_le _ _ _ _ hext
    have h2 := parseMaskKey_le _ _ _ _ hmask
    split at hfin
    · simp only [Option.some.injEq] at hfin
      subst hfin
      simp only [List.length_drop, List.length_cons]
      dsimp only at h1 h2 ⊢
      omega
    · exact Option.noConfusion hfin

/-! ### `_WebSocket.recv` message loop (browser.py lines 87-124) -/

/-- The masked pong frame synthesized on receipt of a ping (browser.py
lines 106-117): opcode byte `0x8A`, masked length field (the code emits
only the 7-bit and 16-bit-extended forms for pongs), the 4-byte mask drawn
from `os.urandom`, then the ping payload XORed with that mask. -/
def pongBytes (payload pmask : List Nat) : List Nat :=
  let plen := payload.length
  138 :: ((if plen < 126 then [128 ||| plen] else [128 ||| 126] ++ pack16 plen)
    ++ pmask ++ maskWith pmask 0 payload)

/-- The frame-reading loop of `_WebSocket.recv` (browser.py lines 89-124)
over the raw byte stream.  `pmasks` supplies the masks `os.urandom(4)`
draws for pong frames, one per ping handled.  Returns the reassembled
message together with the pong byte strings written to the socket, in
order; `none` models a raised `ConnectionError` (close frame, or the
stream ending before a FIN data frame). -/
def recvLoop (pmasks : List (List Nat)) (message : List Nat) (stream : List Nat) :
    Option (List Nat × List (List Nat)) :=
  match hparse : parseFrame stream with
  | none => none
  | some (fin, opcode, _, payload, rest) =>
    if opcode == 9 then
      match recvLoop pmasks.tail message rest with
      | some (msg, pongs) =>
        some (msg, pongBytes payload (pmasks.headD [0, 0, 0, 0]) :: pongs)
      | none => none
    else if opcode == 8 then none
    else if fin then some (message ++ payload, [])
    else recvLoop pmasks (message ++ payload) rest
termination_by stream.length
decreasing_by
  all_goals exact parseFrame_rest_lt stream _ hparse

/-- Unmasked server-to-client frame encoding (RFC 6455 as produced by the
browser side; used to state properties of `recv`): FIN bit and opcode in
the first byte, plain length field without the mask bit, raw payload. -/
def serverFrame (fin : Bool) (opcode : Nat) (payload : List Nat) : List Nat :=
  let length := payload.length
  let lenBytes :=
    if length < 126 then [length]
    else if length < 65536 then [126] ++ pack16 length
    else [127] ++ pack64 length
  ((if fin then 128 else 0) ||| opcode) :: (lenBytes ++ payload)

theorem opByte_facts : ∀ o, o < 16 →
    (128 ||| o) &&& 128 = 128 ∧ (128 ||| o) &&& 15 = o ∧
    o &&& 128 = 0 ∧ o &&& 15 = o := by decide

theorem lenByteServer_small : ∀ l, l < 126 →
    l &&& 128 = 0 ∧ l &&& 127 = l := by decide

/-- Decoding a server frame from the head of a stream yields its fields and
the untouched remainder of the stream. -/
theorem parseFrame_serverFrame (fin : Bool) (opcode : Nat) (payload rest : List Nat)
    (hop : opcode < 16) (hlen : payload.length < 2 ^ 64) :
    parseFrame (serverFrame fin opcode payload ++ rest) =
      some (fin, opcode, false, payload, rest) := by
  obtain ⟨ho128, ho15, ho0, ho15'⟩ := opByte_facts opcode hop
  have hb0128 : ((if fin then (128 : Nat) else 0) ||| opcode) &&& 128 =
      if fin then 128 else 0 := by
    cases fin <;> simp [ho128, ho0]
  have hb015 : ((if fin then (128 : Nat) else 0) ||| opcode) &&& 15 = opcode := by
    cases fin <;> simp [ho15, ho15']
  have htp : (payload ++ rest).take payload.length = payload := List.take_left payload rest
  have hdp : (payload ++ rest).drop payload.length = rest := List.drop_left payload rest
  by_cases h1 : payload.length < 126
  · obtain ⟨hl128, hl127⟩ := lenByteServer_small payload.length h1
    simp only [serverFrame, if_pos h1, List.cons_append, List.append_assoc,
      List.nil_append]
    simp only [parseFrame, parseExtLen, parseMaskKey, hb0128, hb015, hl128, hl127]
    have h126 : (payload.length == 126) = false := by simp; omega
    have h127 : (payload.length == 127) = false := by simp; omega
    simp only [h126, h127, Bool.false_eq_true, if_false]
    simp [htp, hdp]
    cases fin <;> simp
  · by_cases h2 : payload.length < 65536
    · simp only [serverFrame, if_neg h1, if_pos h2, pack16, List.cons_append,
        List.append_assoc, List.nil_append]
      simp only [parseFrame, parseExtLen, parseMaskKey, hb0128, hb015]
      norm_num
      rw [unpack16]
      have f1 : (126 &&& 127 : Nat) = 126 := by decide
      have f2 : (126 &&& 128 : Nat) = 0 := by decide
      simp only [f1, f2, if_pos rfl, Option.some_bind]
      simp [htp, hdp]
      cases fin <;> simp
    · simp only [serverFrame, if_neg h1, if_neg h2, pack64, List.cons_append,
        List.append_assoc, List.nil_append]
      simp only [parseFrame, parseExtLen, parseMaskKey, hb0128, hb015]
      norm_num
      rw [unpack64n payload.length (by norm_num at hlen; exact hlen)]
      have f1 : (127 &&& 127 : Nat) = 127 := by decide
      have f2 : (127 &&& 128 : Nat) = 0 := by decide
      simp only [f1, f2, Option.some_bind]
      simp [htp, hdp]
      cases fin <;> simp

/-- A non-final data frame (opcode neither 8 nor 9) appends its payload to
the message being reassembled and reading continues. -/
theorem recvLoop_dataStep (o : Nat) (ho : o < 16) (h8 : o ≠ 8) (h9 : o ≠ 9)
    (p : List Nat) (hp : p.length < 2 ^ 64)
    (pmasks : List (List Nat)) (msg rest : List Nat) :
    recvLoop pmasks msg (serverFrame false o p ++ rest) =
      recvLoop pmasks (msg ++ p) rest := by
  rw [recvLoop]
  rw [parseFrame_serverFrame false o p rest ho hp]
  simp [h8, h9]

/-- A FIN data frame completes the message. -/
theorem recvLoop_finStep (o : Nat) (ho : o < 16) (h8 : o ≠ 8) (h9 : o ≠ 9)
    (p : List Nat) (hp : p.length < 2 ^ 64)
    (pmasks : List (List Nat)) (msg rest : List Nat) :
    recvLoop pmasks msg (serverFrame true o p ++ rest) = some (msg ++ p, []) := by
  rw [recvLoop]
  rw [parseFrame_serverFrame true o p rest ho hp]
  simp [h8, h9]

/-- A ping frame produces a pong (masked with the next `os.urandom` draw)
and reading continues with the message untouched. -/
theorem recvLoop_pingStep (pp : List Nat) (hpp : pp.length < 2 ^ 64)
    (pmasks : List (List Nat)) (msg rest : List Nat) :
    recvLoop pmasks msg (serverFrame true 9 pp ++ rest) =
      match recvLoop pmasks.tail msg rest with
      | some (m, pongs) => some (m, pongBytes pp (pmasks.headD [0, 0, 0, 0]) :: pongs)
      | none => none := by
  rw [recvLoop]
  rw [parseFrame_serverFrame true 9 pp rest (by norm_num) hpp]
  simp

/-- A run of non-final data fragments is absorbed into the message
accumulator regardless of the split points. -/
theorem recvLoop_dataFrames (ps : List (List Nat))
    (hps : ∀ p ∈ ps, p.length < 2 ^ 64)
    (pmasks : List (List Nat)) (msg tail : List Nat) :
    recvLoop pmasks msg ((ps.map (fun p => serverFrame false 1 p)).flatten ++ tail) =
      recvLoop pmasks (msg ++ ps.flatten) tail := by
  induction ps generalizing msg with
  | nil => simp
  | cons p ps ih =>
    simp only [List.map_cons, List.flatten_cons, List.append_assoc]
    rw [recvLoop_dataStep 1 (by norm_num) (by norm_num) (by norm_num) p
      (hps p (by simp)) pmasks msg _]
    rw [ih (fun q hq => hps q (by simp [hq])) (msg ++ p)]
    simp [List.append_assoc]

/-- Decoding a pong frame recovers a FIN pong (opcode `0xA`) carrying
exactly the echoed ping payload. -/
theorem parseFrame_pongBytes (pp pmask : List Nat) (hm : pmask.length = 4)
    (hpp : pp.length < 65536) :
    parseFrame (pongBytes pp pmask) = some (true, 10, true, pp, []) := by
  have hmaskedlen : (maskWith pmask 0 pp).length = pp.length :=
    maskWith_length pmask 0 pp
  have ht4 : (pmask ++ maskWith pmask 0 pp).take 4 = pmask := List.take_left' hm
  have hd4 : (pmask ++ maskWith pmask 0 pp).drop 4 = maskWith pmask 0 pp :=
    List.drop_left' hm
  by_cases h1 : pp.length < 126
  · obtain ⟨hb128, hb127⟩ := lenByte_small pp.length h1
    simp only [pongBytes, if_pos h1, List.cons_append, List.append_assoc,
      List.nil_append]
    simp only [parseFrame, parseExtLen, parseMaskKey, hb128, hb127]
    have h126 : (pp.length == 126) = false := by simp; omega
    have h127 : (pp.length == 127) = false := by simp; omega
    simp only [h126, h127, Bool.false_eq_true, if_false]
    simp [ht4, hd4, List.length_append, hm, hmaskedlen,
      List.drop_eq_nil_of_le hmaskedlen.le]
    exact ⟨by decide, by rw [List.take_of_length_le hmaskedlen.le, maskWith_maskWith]⟩
  · simp only [pongBytes, if_neg h1, pack16, List.cons_append,
      List.append_assoc, List.nil_append]
    simp only [parseFrame, parseExtLen, parseMaskKey]
    norm_num
    rw [unpack16]
    have d1 : (254 &&& 127 : Nat) = 126 := by decide
    have d2 : (254 &&& 128 : Nat) = 128 := by decide
    have d3 : (138 &&& 128 : Nat) = 128 := by decide
    have d4 : (138 &&& 15 : Nat) = 10 := by decide
    have hdp : (pmask ++ maskWith pmask 0 pp).drop (4 + pp.length) = [] := by
      rw [show (4 + pp.length) = pmask.length + pp.length by rw [hm]]
      rw [List.drop_append, List.drop_eq_nil_of_le hmaskedlen.le]
    simp [ht4, hd4, List.length_append, hm, hmaskedlen, d1, d2, d3, d4, hdp,
      List.drop_eq_nil_of_le hmaskedlen.le,
      List.take_of_length_le hmaskedlen.le, maskWith_maskWith]

/-- C2: for every byte payload accepted by `struct.pack` and every 4-byte
mask key, encoding a masked text frame with `_WebSocket.send`'s framing and
decoding it with `_WebSocket.recv`'s parser (including XOR-unmasking with
the same key) yields the original payload unchanged — for all payload
lengths, hence in particular 0, 125, 126, 65535 and 65536, covering the
7-bit, 16-bit-extended and 64-bit-extended length encodings; and unmasking
a masked payload with the same key reproduces the original bytes. -/
theorem frame_roundtrip_and_masking (payload mask : List Nat)
    (hm : mask.length = 4) (hlen : payload.length < 2 ^ 64) :
    parseFrame (wsSendFrame payload mask) = some (true, 1, true, payload, [])
    ∧ maskWith mask 0 (maskWith mask 0 payload) = payload :=
  ⟨wsFrame_roundtrip_aux payload mask hm hlen, maskWith_maskWith mask 0 payload⟩

/-- Witness for C2 at a concrete payload and mask. -/
theorem frame_roundtrip_and_masking_witness :
    parseFrame (wsSendFrame [104, 105, 33] [7, 1, 255, 3]) =
        some (true, 1, true, [104, 105, 33], [])
      ∧ maskWith [7, 1, 255, 3] 0 (maskWith [7, 1, 255, 3] 0 [104, 105, 33]) =
        [104, 105, 33] :=
  frame_roundtrip_and_masking [104, 105, 33] [7, 1, 255, 3] (by decide) (by decide)

/-- C9: a ping frame arriving anywhere among a message's fragments causes a
masked pong echoing exactly the ping's payload to be sent, the ping's
payload is not included in the reassembled message, and reading continues
until the FIN data frame completes the message. -/
theorem recv_ping_echo_and_exclusion (pre post : List (List Nat))
    (pp pf pmask : List Nat)
    (hpre : ∀ p ∈ pre, p.length < 2 ^ 64) (hpost : ∀ p ∈ post, p.length < 2 ^ 64)
    (hpf : pf.length < 2 ^ 64) (hpp : pp.length < 65536) (hm : pmask.length = 4) :
    recvLoop [pmask] []
        ((pre.map (fun p => serverFrame false 1 p)).flatten
          ++ (serverFrame true 9 pp
          ++ ((post.map (fun p => serverFrame false 1 p)).flatten
          ++ serverFrame true 1 pf))) =
      some (pre.flatten ++ post.flatten ++ pf, [pongBytes pp pmask])
    ∧ parseFrame (pongBytes pp pmask) = some (true, 10, true, pp, []) := by
  refine ⟨?_, parseFrame_pongBytes pp pmask hm hpp⟩
  rw [recvLoop_dataFrames pre hpre [pmask] [] _]
  rw [List.nil_append]
  rw [recvLoop_pingStep pp (lt_trans hpp (by norm_num)) [pmask] pre.flatten _]
  rw [recvLoop_dataFrames post hpost ([pmask].tail) pre.flatten _]
  rw [← List.append_nil (serverFrame true 1 pf)]
  rw [recvLoop_finStep 1 (by norm_num) (by norm_num) (by norm_num) pf hpf _ _ []]
  simp [List.append_assoc]

/-- Witness for C9: one fragment before the ping, one after, then the FIN
fragment. -/
theorem recv_ping_echo_and_exclusion_witness :
    recvLoop [[7, 1, 255, 3]] []
        (([[11], [12, 13]].map (fun p => serverFrame false 1 p)).flatten
          ++ (serverFrame true 9 [9, 9]
          ++ (([[14]].map (fun p => serverFrame false 1 p)).flatten
          ++ serverFrame true 1 [15]))) =
      some ([[11], [12, 13]].flatten ++ [[14]].flatten ++ [15],
        [pongBytes [9, 9] [7, 1, 255, 3]])
    ∧ parseFrame (pongBytes [9, 9] [7, 1, 255, 3]) =
        some (true, 10, true, [9, 9], []) :=
  recv_ping_echo_and_exclusion [[11], [12, 13]] [[14]] [9, 9] [15] [7, 1, 255, 3]
    (by decide) (by decide) (by decide) (by decide) (by decide)

/-! ### CDP command dispatch (`BrowserSession._send`, browser.py lines
263-278) -/

/-- A JSON message received from the browser: an optional `id`, an optional
`error` field (its server-reported rendering), an optional `result`
object (rendered opaquely as a string). -/
structure CdpMsg where
  id : Option Nat
  err : Option String
  result : Option String
deriving DecidableEq, Repr

/-- The outgoing command `{id, method, params}` built by `_send` (lines
266-268); `params` is attached only when the Python value is truthy, i.e.
neither `None` nor the empty dict. -/
structure OutMsg where
  id : Nat
  method : String
  params : Option (List (String × String))
deriving DecidableEq, Repr

/-- Python truthiness of the `params` argument (line 267: `if params:`). -/
def normParams (params : Option (List (String × String))) :
    Option (List (String × String)) :=
  match params with
  | some l => if l.isEmpty then none else some l
  | none => none

/-- The receive loop of `_send` (lines 270-278): keep reading until a
message whose `id` equals the target arrives, discarding everything else;
a matching message with an `error` field raises, otherwise its `result`
(defaulting to `\x7b\x7d`, the empty object) is returned.  `none` ids never
match.  The empty stream models a blocked/raised receive. -/
def cdpAwait (target : Nat) : List CdpMsg → Except String String
  | [] => Except.error "WebSocket connection closed"
  | d :: rest =>
    if d.id == some target then
      match d.err with
      | some e => Except.error ("CDP error: " ++ e)
      | none => Except.ok (d.result.getD "\x7b\x7d")
    else cdpAwait target rest

/-- Model of `BrowserSession._send` (lines 263-278): increment the message id, build
`{id, method, params}`, send it, then await the matching response.  Returns
the session's new message id, the message sent over the socket, and the
command's outcome. -/
def cdpSend (msgId : Nat) (method : String)
    (params : Option (List (String × String))) (incoming : List CdpMsg) :
    Nat × OutMsg × Except String String :=
  let newId := msgId + 1
  (newId, { id := newId, method := method, params := normParams params },
    cdpAwait newId incoming)

theorem cdpAwait_skip (target : Nat) (pre rest : List CdpMsg)
    (hpre : ∀ x ∈ pre, x.id ≠ some target) :
    cdpAwait target (pre ++ rest) = cdpAwait target rest := by
  induction pre with
  | nil => rfl
  | cons d pre ih =>
    have hd : (d.id == some target) = false := by
      simp [hpre d (by simp)]
    simp only [List.cons_append, cdpAwait, hd, Bool.false_eq_true, if_false]
    exact ih (fun x hx => hpre x (by simp [hx]))

/-- C1: `_send` assigns the id one greater than the previous command's id,
sends `{id, method, params}`, discards every received message whose id
differs or is absent, returns the `result` of the first message whose id
matches, and raises a protocol error carrying the server-reported message
exactly when that matching message contains an `error` field. -/
theorem cdp_send_correlation (msgId : Nat) (method : String)
    (params : Option (List (String × String)))
    (pre : List CdpMsg) (m : CdpMsg) (rest : List CdpMsg)
    (hpre : ∀ x ∈ pre, x.id ≠ some (msgId + 1))
    (hm : m.id = some (msgId + 1)) :
    cdpSend msgId method params (pre ++ m :: rest) =
      (msgId + 1,
       { id := msgId + 1, method := method, params := normParams params },
       match m.err with
       | some e => Except.error ("CDP error: " ++ e)
       | none => Except.ok (m.result.getD "\x7b\x7d")) := by
  unfold cdpSend
  dsimp only
  rw [cdpAwait_skip (msgId + 1) pre (m :: rest) hpre]
  simp [cdpAwait, hm]

/-- Witness for C1: an unsolicited event (no id) precedes the matching
response; the event is discarded and the response's result is returned. -/
theorem cdp_send_correlation_witness :
    cdpSend 0 "Page.enable" none
        [{ id := none, err := none, result := none },
         { id := some 1, err := none, result := some "r" }] =
      (1, { id := 1, method := "Page.enable", params := none },
       Except.ok "r") := by
  have h := cdp_send_correlation 0 "Page.enable" none
    [{ id := none, err := none, result := none }]
    { id := some 1, err := none, result := some "r" } []
    (by intro x hx; simp at hx; subst hx; simp)
    (by simp)
  simpa using h

/-! ### Agent loop (`run_login_test`, agent.py lines 200-341) -/

/-- One part of a Gemini response: text or a function call with its
argument mapping (string-valued, as consumed by the loop). -/
inductive Part where
  | text (s : String)
  | functionCall (name : String) (args : List (String × String))
deriving DecidableEq, Repr

/-- Test `"functionCall" in p` (line 261). -/
def Part.isFC : Part → Bool
  | .functionCall _ _ => true
  | .text _ => false

/-- The function-call name of a part, when it is one. -/
def Part.fcName : Part → Option String
  | .functionCall n _ => some n
  | .text _ => none

/-- Lookup `args.get(key, default)` on the argument mapping. -/
def argGetD (args : List (String × String)) (k d : String) : String :=
  match args.find? (fun p => p.fst == k) with
  | some p => p.snd
  | none => d

/-- Python substring membership `needle in hay` on character lists. -/
def containsSeq (needle : List Char) : List Char → Bool
  | [] => needle.isEmpty
  | c :: t => needle.isPrefixOf (c :: t) || containsSeq needle t

/-- Python `needle in hay` on strings. -/
def strContains (hay needle : String) : Bool := containsSeq needle.data hay.data

/-- The success test of lines 329-332: the final summary contains
`"result": "pass"` (with or without a space after the colon). -/
def checkPass (summary : String) : Bool :=
  strContains summary "\"result\": \"pass\"" || strContains summary "\"result\":\"pass\""

/-- JSON string escaping as `json.dumps` performs it for the quote and
backslash characters (control-character escapes are irrelevant here). -/
def pyJsonEscape (s : String) : String :=
  String.mk ((s.data.map (fun c =>
    if c = Char.ofNat 34 then [Char.ofNat 92, Char.ofNat 34]
    else if c = Char.ofNat 92 then [Char.ofNat 92, Char.ofNat 92]
    else [c])).flatten)

def jsonStringLit (s : String) : String := "\"" ++ pyJsonEscape s ++ "\""

/-- Rendering of `json.dumps` applied to the result/reason dict (lines 289-291). -/
def jsonResultReason (result_val reason : String) : String :=
  "\x7b\"result\": " ++ jsonStringLit result_val ++ ", \"reason\": "
    ++ jsonStringLit reason ++ "\x7d"

/-- Rendering of `json.dumps(args)` in the step description (line 274). -/
def jsonArgs (args : List (String × String)) : String :=
  "\x7b" ++ String.intercalate ", "
    (args.map (fun p => jsonStringLit p.fst ++ ": " ++ jsonStringLit p.snd)) ++ "\x7d"

/-- Step description f-string of line 274. -/
def stepDesc (turn : Nat) (name : String) (args : List (String × String)) : String :=
  "[Turn " ++ toString (turn + 1) ++ "] " ++ name ++ "(" ++ jsonArgs args ++ ")"

/-- Join `"\n".join(text_parts)` (line 265). -/
def joinNL : List String → String
  | [] => ""
  | [s] => s
  | s :: rest => s ++ "\n" ++ joinNL rest

/-- The text parts of a response (line 264). -/
def textsOf (parts : List Part) : List String :=
  parts.filterMap (fun p => match p with | Part.text s => some s | _ => none)

/-- The loop's mutable state (agent.py lines 216-238 plus the implicit turn
counter): final summary, completion flag, audit log, completion fields, the
login-timing instrumentation, the number of tool calls executed (used to
index the clock oracle) and the number of model round trips performed. -/
structure LoopSt where
  final_summary : String
  done_called : Bool
  steps : List String
  account_info : String
  offers : String
  login_click : Option Nat
  login_load : Option Nat
  login_duration : Option Int
  stepCount : Nat
  turns : Nat
deriving DecidableEq, Repr

def initLoopSt : LoopSt :=
  { final_summary := "Agent did not produce a result.", done_called := false,
    steps := [], account_info := "", offers := "", login_click := none,
    login_load := none, login_duration := none, stepCount := 0, turns := 0 }

/-- Execution of one function call (agent.py lines 270-319).  `exec` is the
browser oracle behind `execute_tool`; an exception becomes the
`"Error: <message>"` text (lines 294-297).  `clock` supplies `time.time()`
readings indexed by the running tool-call count. -/
def processCall (exec : String → List (String × String) → Except String String)
    (clock : Nat → Nat) (turn : Nat) (st : LoopSt)
    (name : String) (args : List (String × String)) : LoopSt :=
  let st1 := { st with steps := st.steps ++ [stepDesc turn name args] }
  let st2 :=
    if name == "click" && st1.login_click.isNone then
      { st1 with login_click := some (clock st1.stepCount) }
    else st1
  let stRes :=
    if name == "done" then
      ({ st2 with done_called := true,
                  account_info := argGetD args "account_info" "",
                  offers := argGetD args "offers" "",
                  final_summary := jsonResultReason (argGetD args "result" "fail")
                    (argGetD args "reason" "No reason given.") },
       "Test complete.")
    else
      (st2, match exec name args with
            | Except.ok r => r
            | Except.error e => "Error: " ++ e)
  let st3 := stRes.1
  let result := stRes.2
  let st4 :=
    if name == "get_current_url" && st3.login_click.isSome && st3.login_load.isNone
        && !(strContains result.toLower "login") then
      let t := clock st3.stepCount
      { st3 with login_load := some t,
                 login_duration := some ((t : Int) - ((st3.login_click.getD 0 : Nat) : Int)) }
    else st3
  { st4 with stepCount := st4.stepCount + 1 }

/-- Execution of a turn's function calls in order (lines 269-319). -/
def processCalls (exec : String → List (String × String) → Except String String)
    (clock : Nat → Nat) (turn : Nat) (st : LoopSt) : List Part → LoopSt
  | [] => st
  | Part.functionCall name args :: ps =>
    processCalls exec clock turn (processCall exec clock turn st name args) ps
  | Part.text _ :: ps => processCalls exec clock turn st ps

/-- The `for turn in range(max_turns)` loop (lines 241-324).  `respond`
gives the model's parts for each turn (`none` models `_call_gemini`
raising).  Returns the state together with whether an exception escaped the
loop body. -/
def runTurns (respond : Nat → Option (List Part))
    (exec : String → List (String × String) → Except String String)
    (clock : Nat → Nat) : Nat → Nat → LoopSt → LoopSt × Bool
  | _, 0, st => (st, false)
  | turn, fuel + 1, st =>
    match respond turn with
    | none => (st, true)
    | some parts =>
      let st := { st with turns := st.turns + 1 }
      let fcs := parts.filter Part.isFC
      if fcs.isEmpty then
        let texts := textsOf parts
        ({ st with final_summary :=
            if texts.isEmpty then st.final_summary else joinNL texts }, false)
      else
        let st := processCalls exec clock turn st fcs
        if st.done_called then (st, false)
        else runTurns respond exec clock (turn + 1) fuel st

/-- The result dict of `run_login_test` (lines 334-341), with the turn
count added as a model observation. -/
structure AgentResult where
  success : Bool
  summary : String
  steps : List String
  login_duration : Option Int
  account_info : String
  offers : String
  turnsExecuted : Nat
deriving DecidableEq, Repr

def mkResult (st : LoopSt) : AgentResult :=
  { success := checkPass st.final_summary, summary := st.final_summary,
    steps := st.steps, login_duration := st.login_duration,
    account_info := st.account_info, offers := st.offers,
    turnsExecuted := st.turns }

/-- How `session.start()` (line 214; browser.py lines 193-247) exits. -/
inductive StartOutcome where
  | ok
  | timeout
  | connectFail
deriving DecidableEq, Repr

/-- Whether `start()` calls `self.stop()` itself: only on the startup-timeout path
(browser.py lines 240-242). -/
def startStopsItself : StartOutcome → Bool
  | .timeout => true
  | _ => false

/-- Whether `start()` raises: on startup timeout, and on any failure after
the process is spawned (e.g. the `_WebSocket` handshake or the initial
`Page.enable`/`Runtime.enable` commands, browser.py lines 244-246). -/
def startRaises : StartOutcome → Bool
  | .ok => false
  | _ => true

/-- Model of `BrowserSession.stop` (browser.py lines 249-259): close the socket,
`terminate()` the process, `wait(timeout=5)`, `kill()` on expiry.  Returns
(socket closed, process terminated). -/
def browserStop (procAlive diesInGrace : Bool) : Bool × Bool :=
  let wsClosed := true
  let procTerminated :=
    if procAlive then
      if diesInGrace then true
      else true
    else true
  (wsClosed, procTerminated)

/-- The overall outcome of one `run_login_test` call. -/
structure RunOutcome where
  stopCalled : Bool
  raised : Bool
  result : Option AgentResult
  state : LoopSt
deriving Repr

/-- Model of `run_login_test` (agent.py lines 200-341).  `session.start()` at line
214 precedes the `try` at line 240, so an exception from `start()`
propagates without the `finally: session.stop()` at lines 326-327 running;
once the loop is entered, `stop()` runs on every exit path. -/
def run_login_test (so : StartOutcome) (respond : Nat → Option (List Part))
    (exec : String → List (String × String) → Except String String)
    (clock : Nat → Nat) : RunOutcome :=
  if startRaises so then
    { stopCalled := startStopsItself so, raised := true, result := none,
      state := initLoopSt }
  else
    let out := runTurns respond exec clock 0 25 initLoopSt
    { stopCalled := true, raised := out.2,
      result := if out.2 then none else some (mkResult out.1),
      state := out.1 }

theorem processCall_turns (exec : String → List (String × String) → Except String String)
    (clock : Nat → Nat) (turn : Nat) (st : LoopSt) (name : String)
    (args : List (String × String)) :
    (processCall exec clock turn st name args).turns = st.turns := by
  unfold processCall
  dsimp only
  split_ifs <;> rfl

theorem processCall_noDone (exec : String → List (String × String) → Except String String)
    (clock : Nat → Nat) (turn : Nat) (st : LoopSt) (name : String)
    (args : List (String × String)) (h : name ≠ "done") :
    (processCall exec clock turn st name args).done_called = st.done_called
    ∧ (processCall exec clock turn st name args).final_summary = st.final_summary := by
  unfold processCall
  have hn : (name == "done") = false := by simp [h]
  dsimp only
  rw [hn]
  split_ifs <;> simp_all

theorem processCalls_turns (exec : String → List (String × String) → Except String String)
    (clock : Nat → Nat) (turn : Nat) (ps : List Part) :
    ∀ st, (processCalls exec clock turn st ps).turns = st.turns := by
  induction ps with
  | nil => intro st; rfl
  | cons p ps ih =>
    intro st
    cases p with
    | text s => exact ih st
    | functionCall name args =>
      rw [processCalls, ih, processCall_turns]

theorem processCalls_noDone (exec : String → List (String × String) → Except String String)
    (clock : Nat → Nat) (turn : Nat) (ps : List Part)
    (h : ∀ p ∈ ps, Part.fcName p ≠ some "done") :
    ∀ st, (processCalls exec clock turn st ps).done_called = st.done_called
      ∧ (processCalls exec clock turn st ps).final_summary = st.final_summary := by
  induction ps with
  | nil => intro st; exact ⟨rfl, rfl⟩
  | cons p ps ih =>
    intro st
    cases p with
    | text s => exact ih (fun q hq => h q (by simp [hq])) st
    | functionCall name args =>
      have hname : name ≠ "done" := by
        have := h (Part.functionCall name args) (by simp)
        simp [Part.fcName] at this
        exact this
      obtain ⟨hd, hs⟩ := processCall_noDone exec clock turn st name args hname
      obtain ⟨ihd, ihs⟩ := ih (fun q hq => h q (by simp [hq]))
        (processCall exec clock turn st name args)
      rw [processCalls]
      exact ⟨ihd.trans hd, ihs.trans hs⟩

/-- A turn on which the model requests at least one tool call and never the
completion tool `done`. -/
def turnToolNoDone (respond : Nat → Option (List Part)) (t : Nat) : Prop :=
  ∃ parts, respond t = some parts ∧ parts.filter Part.isFC ≠ []
    ∧ ∀ p ∈ parts, Part.fcName p ≠ some "done"

theorem runTurns_noDone_init (respond : Nat → Option (List Part))
    (exec : String → List (String × String) → Except String String)
    (clock : Nat → Nat) :
    ∀ (k turn fuel : Nat) (st : LoopSt),
    (∀ t, turn ≤ t → t < turn + k → turnToolNoDone respond t) →
    st.done_called = false → k ≤ fuel →
    ∃ st', runTurns respond exec clock turn fuel st =
        runTurns respond exec clock (turn + k) (fuel - k) st'
      ∧ st'.turns = st.turns + k ∧ st'.final_summary = st.final_summary
      ∧ st'.done_called = false := by
  intro k
  induction k with
  | zero =>
    intro turn fuel st h hd hk
    exact ⟨st, by simp, by simp, rfl, hd⟩
  | succ k ih =>
    intro turn fuel st h hd hk
    obtain ⟨parts, hresp, hfc, hnodone⟩ := h turn (Nat.le_refl _) (by omega)
    match fuel, hk with
    | fuel + 1, _ =>
      rw [runTurns, hresp]
      have hempty : (parts.filter Part.isFC).isEmpty = false := by
        cases hffc : parts.filter Part.isFC with
        | nil => exact absurd hffc hfc
        | cons a l => rfl
      simp only [hempty, Bool.false_eq_true, if_false]
      have hnd := processCalls_noDone exec clock turn (parts.filter Part.isFC)
        (fun q hq => hnodone q (List.mem_of_mem_filter hq))
        { st with turns := st.turns + 1 }
      have htn := processCalls_turns exec clock turn (parts.filter Part.isFC)
        { st with turns := st.turns + 1 }
      have hd2 : (processCalls exec clock turn { st with turns := st.turns + 1 }
          (parts.filter Part.isFC)).done_called = false := by
        rw [hnd.1]
        exact hd
      simp only [hd2, Bool.false_eq_true, if_false]
      obtain ⟨st', heq, hturns, hsum, hdone⟩ := ih (turn + 1) fuel
        (processCalls exec clock turn { st with turns := st.turns + 1 }
          (parts.filter Part.isFC))
        (fun t h1 h2 => h t (by omega) (by omega)) hd2 (by omega)
      refine ⟨st', ?_, ?_, ?_, hdone⟩
      · rw [heq]
        have e1 : turn + 1 + k = turn + (k + 1) := by omega
        have e2 : fuel - k = fuel + 1 - (k + 1) := by omega
        rw [e1, e2]
      · rw [hturns, htn]
        dsimp only
        omega
      · rw [hsum, hnd.2]

theorem runTurns_turns_le (respond : Nat → Option (List Part))
    (exec : String → List (String × String) → Except String String)
    (clock : Nat → Nat) :
    ∀ (fuel turn : Nat) (st : LoopSt),
      (runTurns respond exec clock turn fuel st).1.turns ≤ st.turns + fuel := by
  intro fuel
  induction fuel with
  | zero =>
    intro turn st
    simp [runTurns]
  | succ fuel ih =>
    intro turn st
    rw [runTurns]
    match hr : respond turn with
    | none => simp
    | some parts =>
      by_cases he : (parts.filter Part.isFC).isEmpty
      · simp [he]
      · simp only [he, Bool.false_eq_true, if_false]
        by_cases hd : (processCalls exec clock turn { st with turns := st.turns + 1 }
            (parts.filter Part.isFC)).done_called
        · simp only [hd, if_true]
          rw [processCalls_turns]
          simp
        · simp only [hd, Bool.false_eq_true, if_false]
          have := ih (turn + 1)
            (processCalls exec clock turn { st with turns := st.turns + 1 }
              (parts.filter Part.isFC))
          rw [processCalls_turns] at this
          simp at this
          omega

/-- Scripted driving model that always requests a single `click` call. -/
def respondAlwaysClick : Nat → Option (List Part) :=
  fun _ => some [Part.functionCall "click" []]

/-- Browser oracle whose every tool call succeeds with an empty result. -/
def execTrivial : String → List (String × String) → Except String String :=
  fun _ _ => Except.ok ""

/-- Constant clock. -/
def clockZero : Nat → Nat := fun _ => 0

/-- C4: a driving model that requests at least one tool call every turn and
never calls `done` makes the loop run exactly `max_turns = 25` turns and
return the default summary with `success = false`; and no model behavior
whatsoever makes the loop execute more than 25 turns. -/
theorem agent_turn_budget (respond : Nat → Option (List Part))
    (exec : String → List (String × String) → Except String String)
    (clock : Nat → Nat)
    (h : ∀ t, t < 25 → turnToolNoDone respond t) :
    ((run_login_test StartOutcome.ok respond exec clock).result.map
        (fun r => (r.turnsExecuted, r.summary, r.success)))
      = some (25, "Agent did not produce a result.", false)
    ∧ ∀ (so : StartOutcome) (respond' : Nat → Option (List Part))
        (exec' : String → List (String × String) → Except String String)
        (clock' : Nat → Nat),
        (run_login_test so respond' exec' clock').state.turns ≤ 25 := by
  constructor
  · obtain ⟨st', heq, hturns, hsum, hdone⟩ :=
      runTurns_noDone_init respond exec clock 25 0 25 initLoopSt
        (fun t h1 h2 => h t (by omega)) rfl (Nat.le_refl _)
    have hfin : runTurns respond exec clock (0 + 25) (25 - 25) st' = (st', false) := rfl
    unfold run_login_test
    rw [show startRaises StartOutcome.ok = false from rfl]
    simp only [Bool.false_eq_true, if_false]
    rw [heq, hfin]
    simp only [Option.map_some, mkResult]
    rw [hturns, hsum]
    simp [initLoopSt]
    decide
  · intro so respond' exec' clock'
    cases so with
    | ok =>
      unfold run_login_test
      rw [show startRaises StartOutcome.ok = false from rfl]
      simp only [Bool.false_eq_true, if_false]
      have := runTurns_turns_le respond' exec' clock' 25 0 initLoopSt
      simpa [initLoopSt] using this
    | timeout => simp [run_login_test, startRaises, initLoopSt]
    | connectFail => simp [run_login_test, startRaises, initLoopSt]

/-- Witness for C4: the always-click script runs 25 turns and fails with
the default summary. -/
theorem agent_turn_budget_witness :
    ((run_login_test StartOutcome.ok respondAlwaysClick execTrivial clockZero).result.map
        (fun r => (r.turnsExecuted, r.summary, r.success)))
      = some (25, "Agent did not produce a result.", false) :=
  (agent_turn_budget respondAlwaysClick execTrivial clockZero
    (fun t ht => ⟨[Part.functionCall "click" []], rfl, by decide, by decide⟩)).1

/-- Scripted driving model that returns only text on turn 1 — text that
happens to contain the success marker the loop greps for. -/
def respondPassText : Nat → Option (List Part) :=
  fun t => if t == 0 then some [Part.text "\"result\": \"pass\""] else none

/-- C5 counterexample: the model stops without tool calls and its text
contains `"result": "pass"`, so the returned result has `success = true`,
refuting the claim that natural termination always yields success=false. -/
theorem natural_termination_success_cex :
    ((run_login_test StartOutcome.ok respondPassText execTrivial clockZero).result.map
        (fun r => (r.success, r.summary)))
      = some (true, "\"result\": \"pass\"") := by decide

/-- C5 (amended): when the model's response at some turn contains no
tool-call requests (all earlier turns having requested non-`done` tools),
the loop terminates in that turn with the response's text (newline-joined;
the default summary when the response has no text) as the final summary,
without raising; the returned `success` flag is the substring test
`checkPass` applied to that summary — false unless the text happens to
contain `"result": "pass"` (or the space-free variant). -/
theorem agent_natural_termination (respond : Nat → Option (List Part))
    (exec : String → List (String × String) → Except String String)
    (clock : Nat → Nat) (t0 : Nat) (parts0 : List Part)
    (ht0 : t0 < 25)
    (hpre : ∀ t, t < t0 → turnToolNoDone respond t)
    (h0 : respond t0 = some parts0)
    (hnofc : parts0.filter Part.isFC = []) :
    ((run_login_test StartOutcome.ok respond exec clock).result.map
        (fun r => (r.turnsExecuted, r.summary, r.success)))
      = some (t0 + 1,
          if (textsOf parts0).isEmpty then "Agent did not produce a result."
          else joinNL (textsOf parts0),
          checkPass (if (textsOf parts0).isEmpty then "Agent did not produce a result."
          else joinNL (textsOf parts0))) := by
  obtain ⟨st', heq, hturns, hsum, hdone⟩ :=
    runTurns_noDone_init respond exec clock t0 0 25 initLoopSt
      (fun t h1 h2 => hpre t (by omega)) rfl (by omega)
  have hfuel : 25 - t0 = (24 - t0) + 1 := by omega
  have hturn0 : 0 + t0 = t0 := by omega
  rw [hturn0, hfuel] at heq
  have hstep : runTurns respond exec clock t0 ((24 - t0) + 1) st' =
      ({ st' with turns := st'.turns + 1,
                  final_summary :=
                    if (textsOf parts0).isEmpty then st'.final_summary
                    else joinNL (textsOf parts0) }, false) := by
    rw [runTurns, h0]
    have he : (parts0.filter Part.isFC).isEmpty = true := by
      rw [hnofc]
      rfl
    simp only [he, if_true]
  unfold run_login_test
  rw [show startRaises StartOutcome.ok = false from rfl]
  simp only [Bool.false_eq_true, if_false]
  rw [heq, hstep]
  simp only [Option.map_some, mkResult]
  rw [hturns, hsum]
  simp [initLoopSt]

/-- Witness for C5 (amended): a plain-text reply terminates the loop after
one turn with that text as summary and success=false. -/
theorem agent_natural_termination_witness :
    ((run_login_test StartOutcome.ok
          (fun t => if t == 0 then some [Part.text "hello"] else none)
          execTrivial clockZero).result.map
        (fun r => (r.turnsExecuted, r.summary, r.success)))
      = some (1, "hello", false) := by
  have h := agent_natural_termination
    (fun t => if t == 0 then some [Part.text "hello"] else none)
    execTrivial clockZero 0 [Part.text "hello"]
    (by decide) (fun t ht => absurd ht (by omega)) rfl rfl
  simpa using h

/-- C3 counterexample: `session.start()` (agent.py line 214) runs before
the `try` of line 240, so a startup failure after the browser process is
spawned — e.g. a WebSocket handshake failure in `_WebSocket.__init__` or a
failing `Page.enable` (browser.py lines 244-246) — propagates without
`session.stop()` ever being invoked. -/
theorem stop_skipped_on_startup_failure :
    (run_login_test StartOutcome.connectFail respondAlwaysClick execTrivial
        clockZero).stopCalled = false := rfl

/-- C3 (amended): once `session.start()` has returned, `stop` is invoked on
every exit path of the agent loop — normal return, budget exhaustion,
completion, and exceptions raised inside the loop — and on the
startup-timeout path `start` invokes `stop` itself; `stop` closes the
socket and terminates the process, force-killing after the bounded grace
period if needed.  Only a startup exception after process spawn (outside
the timeout path) escapes without `stop`. -/
theorem stop_on_every_exit_after_start (so : StartOutcome)
    (respond : Nat → Option (List Part))
    (exec : String → List (String × String) → Except String String)
    (clock : Nat → Nat)
    (hso : so ≠ StartOutcome.connectFail) :
    (run_login_test so respond exec clock).stopCalled = true
    ∧ ∀ (procAlive diesInGrace : Bool),
        browserStop procAlive diesInGrace = (true, true) := by
  constructor
  · cases so with
    | ok => rfl
    | timeout => rfl
    | connectFail => exact absurd rfl hso
  · intro p g
    cases p <;> cases g <;> rfl

/-- Witness for C3 (amended), on the normal-start path. -/
theorem stop_on_every_exit_after_start_witness :
    (run_login_test StartOutcome.ok respondAlwaysClick execTrivial
        clockZero).stopCalled = true
    ∧ ∀ (procAlive diesInGrace : Bool),
        browserStop procAlive diesInGrace = (true, true) :=
  stop_on_every_exit_after_start StartOutcome.ok respondAlwaysClick execTrivial
    clockZero (by decide)

/-! ### Browser tools (`BrowserSession.click` / `.fill` / `.screenshot`,
browser.py lines 179-400) -/

/-- A single-quote character, used in the tool result texts. -/
def sq : String := String.mk [Char.ofNat 39]

/-- Result text of browser.py lines 321 and 351: Element <selector> not found, with the selector single-quoted. -/
def notFoundText (selector : String) : String :=
  "Element " ++ sq ++ selector ++ sq ++ " not found."

/-- The CDP traffic issued by `BrowserSession.click` (lines 307-335). -/
inductive ClickCall where
  | evalLocate (sel : String)
  | dispatchMouse (etype : String) (x y : Int)
  | evalUrl
deriving DecidableEq, Repr

/-- Model of `BrowserSession.click` (lines 307-335), with the page abstracted as a
partial map from selectors to bounding-box centers and the current URL.
Returns the result text and the CDP calls issued, in order. -/
def click (coords : String → Option (Int × Int)) (url : String)
    (selector : String) : String × List ClickCall :=
  match coords selector with
  | none => (notFoundText selector, [ClickCall.evalLocate selector])
  | some (x, y) =>
    ("Clicked " ++ sq ++ selector ++ sq ++ ". Current URL: " ++ url,
     [ClickCall.evalLocate selector, ClickCall.dispatchMouse "mousePressed" x y,
      ClickCall.dispatchMouse "mouseReleased" x y, ClickCall.evalUrl])

def countMouseEvents (calls : List ClickCall) : Nat :=
  (calls.filter (fun c => match c with
    | ClickCall.dispatchMouse _ _ _ => true
    | _ => false)).length

/-- C8: when the selector resolves to no element, `click` returns the
textual not-found result and dispatches no mouse events. -/
theorem click_not_found (coords : String → Option (Int × Int)) (url selector : String)
    (h : coords selector = none) :
    click coords url selector = (notFoundText selector, [ClickCall.evalLocate selector])
    ∧ countMouseEvents (click coords url selector).2 = 0 := by
  unfold click
  rw [h]
  exact ⟨rfl, rfl⟩

/-- Witness for C8 on an empty page. -/
theorem click_not_found_witness :
    click (fun _ => none) "https://x.test/" "#submit" =
      (notFoundText "#submit", [ClickCall.evalLocate "#submit"])
    ∧ countMouseEvents (click (fun _ => none) "https://x.test/" "#submit").2 = 0 :=
  click_not_found (fun _ => none) "https://x.test/" "#submit" rfl

/-- The CDP traffic issued by `BrowserSession.fill` (lines 337-365). -/
inductive FillCall where
  | evalFocusSelect (sel : String)
  | insertText (t : String)
  | evalDispatchChange (sel : String)
deriving DecidableEq, Repr

/-- Model of `BrowserSession.fill` (lines 337-365) with the page abstracted as a
selector-existence predicate.  The body contains the `Input.insertText`
command twice — once at line 352 and once again at line 356 — so a found
element receives two insertions of the value before the `change` event. -/
def fill (found : String → Bool) (selector value : String) :
    String × List FillCall :=
  if found selector then
    ("Filled " ++ sq ++ selector ++ sq ++ " with value.",
     [FillCall.evalFocusSelect selector, FillCall.insertText value,
      FillCall.insertText value, FillCall.evalDispatchChange selector])
  else (notFoundText selector, [FillCall.evalFocusSelect selector])

def countInsertText (calls : List FillCall) : Nat :=
  (calls.filter (fun c => match c with
    | FillCall.insertText _ => true
    | _ => false)).length

/-- C6 evaluated at a failing input: for a resolvable selector, `fill`
issues the `Input.insertText` command with the value twice, not once
(lines 352 and 356 are duplicates), before dispatching the change event. -/
theorem fill_double_insert :
    fill (fun _ => true) "#email" "alice" =
      ("Filled " ++ sq ++ "#email" ++ sq ++ " with value.",
       [FillCall.evalFocusSelect "#email", FillCall.insertText "alice",
        FillCall.insertText "alice", FillCall.evalDispatchChange "#email"])
    ∧ countInsertText (fill (fun _ => true) "#email" "alice").2 = 2 := by
  exact ⟨rfl, rfl⟩

/-- Attributes assigned by the first `__init__` of `BrowserSession`
(browser.py lines 182-184) — dead code, because a second `def __init__`
follows in the same class body. -/
def firstInitAttrs : List String := ["headless", "screenshot_dir"]

/-- Attributes assigned by the second `__init__` (lines 185-191); Python
binds the later definition, so this is the effective constructor and it
never assigns `screenshot_dir` (nor accepts it as a parameter). -/
def secondInitAttrs : List String :=
  ["headless", "_process", "_ws", "_msg_id", "_port", "_user_data_dir"]

/-- The `__init__` definitions in class-body order; the attribute set of a
constructed `BrowserSession` is that of the last definition. -/
def classInitDefs : List (List String) := [firstInitAttrs, secondInitAttrs]

def effectiveInitAttrs : List String := classInitDefs.getLastD []

def pathJoin (a b : String) : String := a ++ "/" ++ b

/-- Model of `BrowserSession.screenshot` (lines 387-400): the body first reads
`self.screenshot_dir` (line 389) — an `AttributeError` when the attribute
was never assigned — then captures and computes a path under it, and then
the residual duplicated block (lines 393-397) captures a second time and
recomputes the path under the literal `"screenshots"` directory, which is
where the file is actually written.  Returns the result text and the
number of `Page.captureScreenshot` commands issued. -/
def screenshot (attrs : List String) (screenshotDirVal : String)
    (filename : String) : Except String (String × Nat) :=
  if attrs.contains "screenshot_dir" then
    let _path1 := pathJoin screenshotDirVal filename
    let path2 := pathJoin "screenshots" filename
    Except.ok ("Screenshot saved to " ++ path2, 2)
  else Except.error "AttributeError: screenshot_dir"

/-- C7 evaluated at the failing input: a default-constructed session has no
`screenshot_dir` attribute (the second `__init__` wins), so `screenshot`
raises `AttributeError` instead of persisting anything; and even under the
dead first `__init__`'s attributes the file would be written under the
literal `screenshots` directory — not the configured one — after capturing
twice. -/
theorem screenshot_missing_attr :
    screenshot effectiveInitAttrs "shots" "shot.png" =
      Except.error "AttributeError: screenshot_dir"
    ∧ effectiveInitAttrs.contains "screenshot_dir" = false
    ∧ screenshot firstInitAttrs "shots" "shot.png" =
        Except.ok ("Screenshot saved to " ++ pathJoin "screenshots" "shot.png", 2) := by
  refine ⟨rfl, by decide, rfl⟩

/-! ### `LoginCheckerSkill.parse_done` (skills/login_checker.py lines
102-110) -/

/-- A Python value in the dict `parse_done` returns. -/
inductive PyVal where
  | s (v : String)
  | b (v : Bool)
  | dur (v : Option Int)
deriving DecidableEq, Repr

/-- Model of `parse_done` (login_checker.py lines 102-110): builds the result dict
with exactly the keys success, summary, account_info, offers and
login_duration; `success` is `args.get("result", "fail") == "pass"` and the
summary is the f-string interpolation of result and reason. -/
def parse_done (login_duration : Option Int) (args : List (String × String)) :
    List (String × PyVal) :=
  let result_val := argGetD args "result" "fail"
  [("success", PyVal.b (result_val == "pass")),
   ("summary", PyVal.s ("\x7b\"result\": \"" ++ result_val ++ "\", \"reason\": \""
      ++ argGetD args "reason" "" ++ "\"\x7d")),
   ("account_info", PyVal.s (argGetD args "account_info" "")),
   ("offers", PyVal.s (argGetD args "offers" "")),
   ("login_duration", PyVal.dur login_duration)]

def dictLookup (d : List (String × PyVal)) (k : String) : Option PyVal :=
  (d.find? (fun p => p.fst == k)).map (fun p => p.snd)

def argLookup (args : List (String × String)) (k : String) : Option String :=
  (args.find? (fun p => p.fst == k)).map (fun p => p.snd)

/-- C10: `parse_done` returns success=True exactly when the argument
mapping's `result` value equals `"pass"`; an absent `result` key is treated
as `"fail"` so success is False; and the returned dict always carries the
summary, account_info, offers and login_duration keys (the latter holding
the skill's recorded duration). -/
theorem parse_done_success_iff (ld : Option Int) (args : List (String × String)) :
    dictLookup (parse_done ld args) "success"
        = some (PyVal.b (argGetD args "result" "fail" == "pass"))
    ∧ ((argGetD args "result" "fail" == "pass") = true
        ↔ argLookup args "result" = some "pass")
    ∧ (argLookup args "result" = none →
        dictLookup (parse_done ld args) "success" = some (PyVal.b false))
    ∧ (dictLookup (parse_done ld args) "summary").isSome = true
    ∧ (dictLookup (parse_done ld args) "account_info").isSome = true
    ∧ (dictLookup (parse_done ld args) "offers").isSome = true
    ∧ dictLookup (parse_done ld args) "login_duration" = some (PyVal.dur ld) := by
  refine ⟨rfl, ?_, ?_, rfl, rfl, rfl, rfl⟩
  · cases hf : args.find? (fun p => p.fst == "result") with
    | none => simp [argGetD, argLookup, hf]
    | some p => simp [argGetD, argLookup, hf]
  · intro hnone
    have hf : args.find? (fun p => p.fst == "result") = none := by
      unfold argLookup at hnone
      cases hf : args.find? (fun p => p.fst == "result") with
      | none => rfl
      | some p => rw [hf] at hnone; simp at hnone
    simp [dictLookup, parse_done, argGetD, hf]

/-- Witness for C10 at an argument mapping lacking the `result` key. -/
theorem parse_done_success_iff_witness :
    dictLookup (parse_done none [("reason", "x")]) "success" = some (PyVal.b false)
    ∧ dictLookup (parse_done none [("reason", "x")]) "login_duration"
        = some (PyVal.dur none) := by
  have h := parse_done_success_iff none [("reason", "x")]
  exact ⟨h.2.2.1 (by decide), h.2.2.2.2.2.2⟩

end QAAgent
